import Mathlib

/-!
# Gantry workflow engine — verification of the specification against the code

Shallow embedding of the gantry backend (Go) in Lean 4:
* `src/backend/internal/models/{workflow.go, run.go}` — data model and the
  `WorkflowRun` mutators,
* `src/backend/internal/parser/yaml.go` — job-order recovery and validation,
* `src/backend/internal/server/server.go` — `executeWorkflow` / `runJobs`
  orchestration,
* `src/backend/internal/storage/{memory.go, mongodb.go}` — the persistence
  contract,
* `src/backend/internal/executor/docker.go` — the container execution backend.

Go maps are modelled as association lists carrying one iteration order
(`map[k]v` writes are insert-or-replace; `range` iteration order is
unspecified in Go, so statements that depend on it take the order as given).
Go slices and pointers are modelled, where aliasing matters, as indices into
an explicit heap (`Heap` below).  Machine time is modelled as an abstract
`Nat` clock.
-/

namespace Gantry

/-- A step of a job: `models.Step` (`name`, `run`; the execution-time fields
are never populated by the backend and are omitted). -/
structure Step where
  name : String
  run : String
deriving DecidableEq, Inhabited

/-- A job: `models.Job`.  `runsOn` is the `runs-on` target label; `startedAt`
is Go's `time.Time` (zero value `0`), `endedAt` is `*time.Time` (nil = `none`). -/
structure Job where
  runsOn : String := ""
  steps : List Step := []
  status : String := ""
  output : String := ""
  startedAt : Nat := 0
  endedAt : Option Nat := none
deriving DecidableEq, Inhabited

/-- The zero `models.Job` value, what `wf.Jobs[name]` yields for a missing key. -/
def zeroJob : Job := {}

/-- Go map write `m[k] = v`: replace the binding if the key is present,
otherwise add it. -/
def mapInsert {α : Type} : List (String × α) → String → α → List (String × α)
  | [], k, v => [(k, v)]
  | (k', v') :: rest, k, v =>
    if k' = k then (k, v) :: rest else (k', v') :: mapInsert rest k v

/-- Go map read `v, ok := m[k]`. -/
def mapLookup {α : Type} : List (String × α) → String → Option α
  | [], _ => none
  | (k', v') :: rest, k => if k' = k then some v' else mapLookup rest k

/-- A workflow: `models.Workflow`.  `jobs` is the `map[string]Job` listed in
one iteration order (keys distinct); `jobOrder` is the `JobOrder` slice. -/
structure Workflow where
  name : String
  jobs : List (String × Job)
  jobOrder : List String
deriving DecidableEq, Inhabited

/-- A run record: `models.WorkflowRun` (value view; aliasing of the
`JobOrder` slice is treated separately in the heap model below). -/
structure WorkflowRun where
  id : String
  workflowName : String
  status : String
  jobs : List (String × Job)
  jobOrder : List String
  startedAt : Nat
  completedAt : Option Nat
deriving DecidableEq, Inhabited

/-- `WorkflowRun.UpdateJob` (run.go:22): `r.Jobs[name] = job`. -/
def WorkflowRun.updateJob (r : WorkflowRun) (name : String) (job : Job) :
    WorkflowRun :=
  { r with jobs := mapInsert r.jobs name job }

/-- `WorkflowRun.GetJob` (run.go:29). -/
def WorkflowRun.getJob (r : WorkflowRun) (name : String) : Option Job :=
  mapLookup r.jobs name

/-- `WorkflowRun.SetStatus` (run.go:37): unconditionally overwrites `Status`;
there is no terminal-state guard in the source. -/
def WorkflowRun.setStatus (r : WorkflowRun) (s : String) : WorkflowRun :=
  { r with status := s }

/-- `WorkflowRun.Complete` (run.go:44): sets `CompletedAt` to now,
unconditionally. -/
def WorkflowRun.complete (r : WorkflowRun) (now : Nat) : WorkflowRun :=
  { r with completedAt := some now }

/-! ## Parser (`parser/yaml.go`)

`Parse` decodes the document into the struct, then re-decodes the `jobs`
mapping as a `yaml.Node` and walks `Content` two entries at a time, keeping
each key node whose `Value` is not the empty string (yaml.go:41-48).  If that
pass produced nothing it falls back to the (unordered) map keys
(yaml.go:52-56).  The declaration is modelled by the list of
`(job-name, job)` pairs in source order; `yaml.v3` rejects duplicate mapping
keys, so the keys are distinct. -/

/-- The `yaml.Node` pass of `Parser.Parse`: the declared keys, in source
order, except those equal to `""` (the `Value != ""` filter, yaml.go:44). -/
def nodePassJobOrder (decl : List (String × Job)) : List String :=
  (decl.map Prod.fst).filter (fun k => k ≠ "")

/-- `Parser.Parse`'s resulting `JobOrder`: the node pass, or the map keys
when the node pass produced nothing (yaml.go:52-56; the fallback iterates
the map, modelled here by the declaration order of the surviving keys). -/
def parseJobOrder (decl : List (String × Job)) : List String :=
  let fromNode := nodePassJobOrder decl
  if fromNode.isEmpty then decl.map Prod.fst else fromNode

/-- `Parser.Parse` (yaml.go:21-59), restricted to the fields the claims are
about: the jobs mapping is the declared one and `JobOrder` is recovered as
above. -/
def parseWorkflow (name : String) (decl : List (String × Job)) : Workflow :=
  { name := name, jobs := decl, jobOrder := parseJobOrder decl }

/-- The inner step loop of `Parser.Validate` (yaml.go:76-83): for step `i`
(1-based in the messages), an empty step name wins over an empty run text. -/
def validateSteps (jobName : String) : Nat → List Step → Option String
  | _, [] => none
  | i, step :: rest =>
    if step.name = "" then
      some ("job '" ++ jobName ++ "' step " ++ toString i ++ " is missing a name")
    else if step.run = "" then
      some ("job '" ++ jobName ++ "' step '" ++ step.name ++
        "' is missing run commands")
    else validateSteps jobName (i + 1) rest

/-- The per-job body of `Parser.Validate` (yaml.go:72-83): no steps is
reported before any step-level violation. -/
def validateJob (jobName : String) (job : Job) : Option String :=
  if job.steps.isEmpty then
    some ("job '" ++ jobName ++ "' must have at least one step")
  else validateSteps jobName 1 job.steps

/-- The `range wf.Jobs` loop of `Parser.Validate` (yaml.go:71): jobs are
visited in map-iteration order (taken as the list order here, since Go leaves
it unspecified); the first violating job's message is returned. -/
def validateJobs : List (String × Job) → Option String
  | [] => none
  | (jobName, job) :: rest =>
    match validateJob jobName job with
    | some e => some e
    | none => validateJobs rest

/-- `Parser.Validate` (yaml.go:62-87).  `none` = valid. -/
def validate (wf : Workflow) : Option String :=
  if wf.name = "" then some "workflow name is required"
  else if wf.jobs.isEmpty then some "workflow must have at least one job"
  else validateJobs wf.jobs

/-- A step passes rule (4): non-empty name and non-empty run text. -/
def stepOK (s : Step) : Bool :=
  s.name ≠ "" && s.run ≠ ""

/-- A job passes rules (3) and (4). -/
def jobOK (job : Job) : Bool :=
  !job.steps.isEmpty && job.steps.all stepOK

/-! ## Run orchestrator (`server/server.go`)

`executeWorkflow` (server.go:220-240) builds the run id from
`time.Now().Unix()` alone, creates the run with a fresh empty jobs map and
the workflow's `JobOrder`, persists it and spawns `runJobs`.
`runJobs` (server.go:243-312) walks the job order, marking each job running,
invoking the executor, recording the outcome, stopping at the first failure,
and finally setting the overall status; a deferred block then calls
`run.Complete()` and persists once more.  The executor is abstracted as a
function returning output text and a failure flag; the wall clock as a `Nat`
counter advanced by one around each execution. -/

/-- The run id built by `executeWorkflow` (server.go:221):
`fmt.Sprintf("run-%d", time.Now().Unix())` — the unix second and nothing else. -/
def genRunID (nowUnix : Nat) : String :=
  "run-" ++ toString nowUnix

/-- `executeWorkflow` (server.go:220-240): the created run.  `Jobs` is a
fresh empty map; `JobOrder` takes the workflow's slice (the heap model below
records that this is an alias, not a copy). -/
def executeWorkflow (wf : Workflow) (nowUnix : Nat) : WorkflowRun :=
  { id := genRunID nowUnix
    workflowName := wf.name
    status := "running"
    jobs := []
    jobOrder := wf.jobOrder
    startedAt := nowUnix
    completedAt := none }

/-- Result of one executor invocation: the combined output and whether
`Execute` returned an error. -/
structure ExecResult where
  output : String
  failed : Bool
deriving DecidableEq, Inhabited

/-- What `runJobs`'s loop produces: the run after the loop, the `allSuccess`
flag, the clock, the sequence of run states after each mutation of the run,
and the names the Execution Backend was invoked for, in order. -/
structure LoopResult where
  run : WorkflowRun
  allSuccess : Bool
  clock : Nat
  trace : List WorkflowRun
  executed : List String

/-- The `for _, jobName := range jobOrder` loop of `runJobs`
(server.go:265-301): look the job up in the workflow (zero value if absent),
mark it running and record it, execute, record output / end time / outcome,
and `break` on the first failure. -/
def runJobsLoop (exec : String → Job → ExecResult) (wf : Workflow) :
    List String → WorkflowRun → Nat → LoopResult
  | [], run, t => ⟨run, true, t, [], []⟩
  | jobName :: rest, run, t =>
    let job0 := (mapLookup wf.jobs jobName).getD zeroJob
    let job1 := { job0 with status := "running", startedAt := t }
    let run1 := run.updateJob jobName job1
    let res := exec jobName job1
    let job2 := { job1 with
      output := res.output
      endedAt := some (t + 1)
      status := if res.failed then "failed" else "success" }
    let run2 := run1.updateJob jobName job2
    if res.failed then
      ⟨run2, false, t + 2, [run1, run2], [jobName]⟩
    else
      let r := runJobsLoop exec wf rest run2 (t + 2)
      ⟨r.run, r.allSuccess, r.clock, run1 :: run2 :: r.trace, jobName :: r.executed⟩

/-- The order `runJobs` iterates (server.go:258-263): the workflow's
`JobOrder`, or the map keys when it is empty. -/
def effectiveJobOrder (wf : Workflow) : List String :=
  if wf.jobOrder.isEmpty then wf.jobs.map Prod.fst else wf.jobOrder

/-- Everything `runJobs` did to the run: the final state, every intermediate
run state in order (the last entry is the final state), and the jobs the
Execution Backend was invoked for. -/
structure RunJobsResult where
  final : WorkflowRun
  trace : List WorkflowRun
  executed : List String

/-- `runJobs` (server.go:243-312): the loop, then `SetStatus` from
`allSuccess` (server.go:303-307), then the deferred `run.Complete()`
(server.go:244-250), which runs last. -/
def runJobs (exec : String → Job → ExecResult) (wf : Workflow)
    (run : WorkflowRun) (t : Nat) : RunJobsResult :=
  let r := runJobsLoop exec wf (effectiveJobOrder wf) run t
  let run3 := r.run.setStatus (if r.allSuccess then "success" else "failed")
  let run4 := run3.complete r.clock
  { final := run4, trace := r.trace ++ [run3, run4], executed := r.executed }

/-! ## Storage (`storage/memory.go`, `storage/mongodb.go`)

The in-memory store is a `map[string]*T` guarded by one mutex; it is
modelled as an association list.  The MongoDB collections are modelled as
document lists; `UpdateOne` replaces the first document matching the filter
and reports the number matched (0 or 1). -/

/-- `MemoryStorage.SaveWorkflow` (memory.go:26-31): plain map write, never
an error.  Returns (new table, error). -/
def memSaveWorkflow (store : List (String × Workflow)) (wf : Workflow) :
    List (String × Workflow) × Option String :=
  (mapInsert store wf.name wf, none)

/-- `MemoryStorage.SaveRun` (memory.go:70-75): plain map write, never an
error. -/
def memSaveRun (store : List (String × WorkflowRun)) (run : WorkflowRun) :
    List (String × WorkflowRun) :=
  mapInsert store run.id run

/-- `MemoryStorage.UpdateRun` (memory.go:102-111): error (store untouched)
when the id is absent, plain replace when present. -/
def memUpdateRun (store : List (String × WorkflowRun)) (run : WorkflowRun) :
    List (String × WorkflowRun) × Option String :=
  match mapLookup store run.id with
  | none => (store, some ("run '" ++ run.id ++ "' not found"))
  | some _ => (mapInsert store run.id run, none)

/-- Mongo `UpdateOne` without upsert: replace the first document whose key
matches, returning the new collection and `MatchedCount`. -/
def replaceFirstBy {α : Type} (key : α → String) :
    List α → String → α → List α × Nat
  | [], _, _ => ([], 0)
  | d :: rest, k, nd =>
    if key d = k then (nd :: rest, 1)
    else
      let r := replaceFirstBy key rest k nd
      (d :: r.1, r.2)

/-- `MongoStorage.UpdateRun` (mongodb.go:195-215): `UpdateOne` on the
`id` filter with no upsert option; `MatchedCount == 0` is reported as
not-found. -/
def mongoUpdateRun (docs : List WorkflowRun) (run : WorkflowRun) :
    List WorkflowRun × Option String :=
  let r := replaceFirstBy WorkflowRun.id docs run.id run
  if r.2 = 0 then (docs, some ("run '" ++ run.id ++ "' not found"))
  else (r.1, none)

/-- `MongoStorage.SaveWorkflow` (mongodb.go:50-64): `UpdateOne` on the
`name` filter with `SetUpsert(true)` — replace the match, or insert a new
document when nothing matched.  Never a not-found error. -/
def mongoSaveWorkflow (docs : List Workflow) (wf : Workflow) :
    List Workflow × Option String :=
  let r := replaceFirstBy Workflow.name docs wf.name wf
  if r.2 = 0 then (docs ++ [wf], none) else (r.1, none)

/-! ## Execution backend (`executor/docker.go`)

`DockerExecutor.Execute` (docker.go:35-114) pulls the image, creates the
container, starts it, waits, fetches logs and removes the container.  The
Docker daemon's behaviour is abstracted by `DockerEnv`; the model records
whether a container was created and whether it was removed before `Execute`
returned, following the source's early returns exactly: the start-failure
and wait-error paths return without calling `cleanupContainer`
(docker.go:87-89 and docker.go:94-97). -/

/-- Outcomes of the Docker daemon calls made by `Execute`. -/
structure DockerEnv where
  pullOk : Bool
  createOk : Bool
  startOk : Bool
  waitErr : Bool
  statusCode : Nat
  logs : String
deriving DecidableEq, Inhabited

/-- What one `Execute` call did: whether a container came into existence,
whether it was removed before returning, the output, and the error if any. -/
structure ExecTrace where
  created : Bool := false
  removed : Bool := false
  output : String := ""
  err : Option String := none
deriving DecidableEq, Inhabited

/-- `DockerExecutor.Execute` (docker.go:35-114), path by path:
pull failure and create failure return before any container exists;
start failure (docker.go:87-89) and wait error (docker.go:94-97) return
early with the container left in place; a non-zero exit fetches logs,
removes the container and returns both logs and an error (docker.go:99-104);
success fetches logs, removes the container and returns the logs. -/
def dockerExecute (env : DockerEnv) : ExecTrace :=
  if !env.pullOk then { err := some "failed to pull image" }
  else if !env.createOk then { err := some "failed to create container" }
  else if !env.startOk then
    { created := true, err := some "failed to start container" }
  else if env.waitErr then
    { created := true, err := some "error waiting for container" }
  else if env.statusCode ≠ 0 then
    { created := true, removed := true, output := env.logs
      err := some "container exited with non-zero status" }
  else
    { created := true, removed := true, output := env.logs }

/-! ## Aliasing model

Where claims are about sharing of Go slices / pointers, values are not
enough: a `[]string`, a `[]Step` and a `map[string]Job` are modelled as
indices into an explicit heap, so that "copy" (fresh index, same contents)
and "alias" (same index) are distinguishable, and an in-place write through
one reference is observable through every alias. -/

/-- A `models.Job` value whose slice/pointer fields are heap references:
`Steps` is a `[]Step` slice (`stepsRef`), `EndedAt` a `*time.Time`
(`endedAtRef`).  Copying the struct value copies these references. -/
structure JobRef where
  runsOn : String := ""
  stepsRef : Nat := 0
  status : String := ""
  output : String := ""
  startedAt : Nat := 0
  endedAtRef : Option Nat := none
deriving DecidableEq, Inhabited

/-- The heap: backing arrays of `[]string` slices, backing arrays of
`[]Step` slices, `map[string]Job` objects, and `time.Time` cells. -/
structure Heap where
  strArrays : List (List String) := []
  stepArrays : List (List Step) := []
  jobMaps : List (List (String × JobRef)) := []
  timeCells : List Nat := []
deriving DecidableEq, Inhabited

/-- Read a `[]string` slice. -/
def Heap.readStrs (h : Heap) (r : Nat) : List String :=
  (h.strArrays.get? r).getD []

/-- In-place write to a `[]string` slice (element assignment through any
alias of the slice). -/
def Heap.writeStrs (h : Heap) (r : Nat) (v : List String) : Heap :=
  { h with strArrays := h.strArrays.set r v }

/-- `make([]string, ...)`: a fresh backing array. -/
def Heap.allocStrs (h : Heap) (v : List String) : Heap × Nat :=
  ({ h with strArrays := h.strArrays ++ [v] }, h.strArrays.length)

/-- Read a `[]Step` slice. -/
def Heap.readSteps (h : Heap) (r : Nat) : List Step :=
  (h.stepArrays.get? r).getD []

/-- In-place write to a `[]Step` slice. -/
def Heap.writeSteps (h : Heap) (r : Nat) (v : List Step) : Heap :=
  { h with stepArrays := h.stepArrays.set r v }

/-- Read a `map[string]Job` object. -/
def Heap.readJobMap (h : Heap) (r : Nat) : List (String × JobRef) :=
  (h.jobMaps.get? r).getD []

/-- `make(map[string]Job)` (populated with the given entries): a fresh map
object. -/
def Heap.allocJobMap (h : Heap) (v : List (String × JobRef)) : Heap × Nat :=
  ({ h with jobMaps := h.jobMaps ++ [v] }, h.jobMaps.length)

/-- `models.Workflow` with its reference-typed fields explicit. -/
structure WorkflowRef where
  name : String
  jobsRef : Nat
  jobOrderRef : Nat
deriving DecidableEq, Inhabited

/-- `models.WorkflowRun` with its reference-typed fields explicit. -/
structure RunRef where
  id : String
  workflowName : String
  status : String
  jobsRef : Nat
  jobOrderRef : Nat
  startedAt : Nat
  completedAtRef : Option Nat
deriving DecidableEq, Inhabited

/-- `executeWorkflow` (server.go:220-240) at the reference level:
`Jobs: make(map[string]Job)` allocates a fresh empty map, while
`JobOrder: wf.JobOrder` is a plain slice assignment — the run receives the
workflow's reference itself, no new backing array is allocated. -/
def executeWorkflowRef (h : Heap) (wf : WorkflowRef) (nowUnix : Nat) :
    Heap × RunRef :=
  let a := h.allocJobMap []
  (a.1,
   { id := genRunID nowUnix
     workflowName := wf.name
     status := "running"
     jobsRef := a.2
     jobOrderRef := wf.jobOrderRef
     startedAt := nowUnix
     completedAtRef := none })

/-- `WorkflowRun.Clone` (run.go:52-72) at the reference level:
`JobOrder` gets `make` + `copy` (fresh array, same contents); `Jobs` gets a
fresh map filled by `clone.Jobs[k] = v`, a struct-value copy that keeps each
job's `stepsRef` and `endedAtRef`; `CompletedAt` copies the pointer. -/
def Heap.cloneRun (h : Heap) (r : RunRef) : Heap × RunRef :=
  let a := h.allocStrs (h.readStrs r.jobOrderRef)
  let b := a.1.allocJobMap (a.1.readJobMap r.jobsRef)
  (b.1,
   { id := r.id
     workflowName := r.workflowName
     status := r.status
     jobsRef := b.2
     jobOrderRef := a.2
     startedAt := r.startedAt
     completedAtRef := r.completedAtRef })

/-- `MemoryStorage.GetRun` (memory.go:78-87): not-found when the id is
absent, otherwise `run.Clone()`. -/
def getRunRef (h : Heap) (store : List (String × RunRef)) (id : String) :
    Option (Heap × RunRef) :=
  match mapLookup store id with
  | none => none
  | some r => some (h.cloneRun r)

/-! ## Concrete fixtures used by counterexamples and witnesses -/

/-- A well-formed step. -/
def okStep : Step := { name := "say hi", run := "echo hi" }

/-- A well-formed one-step job. -/
def okJob : Job := { runsOn := "ubuntu", steps := [okStep] }

/-- An executor in which exactly job `b` fails. -/
def cxExec : String → Job → ExecResult := fun name _ =>
  if name = "b" then { output := "boom", failed := true }
  else { output := "ok", failed := false }

/-- A three-job workflow `[a, b, c]`. -/
def cxWorkflow : Workflow :=
  { name := "demo"
    jobs := [("a", okJob), ("b", okJob), ("c", okJob)]
    jobOrder := ["a", "b", "c"] }

/-- An executor in which every job succeeds. -/
def okExec : String → Job → ExecResult := fun _ _ =>
  { output := "ok", failed := false }

/-- A job with no steps: violates validation rule (3). -/
def jobNoSteps : Job := { runsOn := "ubuntu" }

/-- A job whose only step has an empty name: violates validation rule (4). -/
def jobBadStepName : Job :=
  { runsOn := "ubuntu", steps := [{ name := "", run := "echo hi" }] }

/-- A run already in a terminal state (`status = "success"`,
`completed_at` set). -/
def terminalRunCx : WorkflowRun :=
  { id := "run-1", workflowName := "w", status := "success"
    jobs := [("a", okJob)], jobOrder := ["a"], startedAt := 0
    completedAt := some 5 }

/-- Heap fixture for the job-order aliasing counterexample: one `[]string`
backing array (ref 0) holding the workflow's job order. -/
def cxHeap6 : Heap :=
  { strArrays := [["lint", "test"]], jobMaps := [[]] }

/-- Workflow whose `JobOrder` slice is ref 0 of `cxHeap6`. -/
def cxWfRef : WorkflowRef := { name := "demo", jobsRef := 0, jobOrderRef := 0 }

/-- Heap fixture for the clone-depth counterexample: job order array at
str-ref 0, job `a`'s steps at step-ref 0, and the run's jobs map at
map-ref 0. -/
def cxHeap8 : Heap :=
  { strArrays := [["a"]]
    stepArrays := [[okStep]]
    jobMaps := [[("a", { runsOn := "ubuntu", stepsRef := 0, status := "success" })]] }

/-- The stored run of the clone-depth counterexample. -/
def cxStoredRun : RunRef :=
  { id := "run-1", workflowName := "w", status := "success"
    jobsRef := 0, jobOrderRef := 0, startedAt := 0, completedAtRef := none }

/-- The store holding `cxStoredRun`. -/
def cxRunStore : List (String × RunRef) := [("run-1", cxStoredRun)]

/-- The heap and run value returned by `getRun "run-1"` on the fixture. -/
def cxCloneOut : Heap × RunRef := cxHeap8.cloneRun cxStoredRun

/-- The steps reference found inside the RETURNED copy's job `a`. -/
def cxCloneStepsRef : Nat :=
  ((mapLookup (cxCloneOut.1.readJobMap cxCloneOut.2.jobsRef) "a").getD default).stepsRef

/-- The steps of the STORED run's job `a`, as observed in a given heap. -/
def cxStoredSteps (h : Heap) : List Step :=
  h.readSteps ((mapLookup (h.readJobMap cxStoredRun.jobsRef) "a").getD default).stepsRef

/-- The heap after writing, through the returned copy's steps reference, a
replacement step list. -/
def cxMutatedHeap : Heap :=
  cxCloneOut.1.writeSteps cxCloneStepsRef [{ name := "hacked", run := "rm -rf" }]

/-- Docker outcomes where `ContainerCreate` succeeds but `ContainerStart`
fails. -/
def startFailEnv : DockerEnv :=
  { pullOk := true, createOk := true, startOk := false, waitErr := false
    statusCode := 0, logs := "" }

/-- Docker outcomes where the container starts but `ContainerWait` reports
an error. -/
def waitErrEnv : DockerEnv :=
  { pullOk := true, createOk := true, startOk := true, waitErr := true
    statusCode := 0, logs := "" }

/-- A run created by triggering `cxWorkflow` at unix second 100
(id `run-100`). -/
def cxRun1 : WorkflowRun := executeWorkflow cxWorkflow 100

/-- A later state of the same run (same id `run-100`). -/
def cxRun2 : WorkflowRun := (executeWorkflow cxWorkflow 100).setStatus "success"

/-- An in-memory run table holding `cxRun1`. -/
def cxRunStoreMem : List (String × WorkflowRun) := [("run-100", cxRun1)]

/-- The previously stored version of the `demo` workflow. -/
def cxOldWf : Workflow := { name := "demo", jobs := [("a", okJob)], jobOrder := ["a"] }

/-- An in-memory workflow table holding `cxOldWf` under `demo`. -/
def cxWfStoreMem : List (String × Workflow) := [("demo", cxOldWf)]

/-! ## Helper lemmas: Go-map association lists -/

theorem mapLookup_insert_self {α : Type} (m : List (String × α)) (k : String)
    (v : α) : mapLookup (mapInsert m k v) k = some v := by
  induction m with
  | nil => simp [mapInsert, mapLookup]
  | cons p rest ih =>
    obtain ⟨a, w⟩ := p
    by_cases h : a = k <;> simp [mapInsert, mapLookup, h, ih]

theorem mapLookup_insert_ne {α : Type} (m : List (String × α)) (k q : String)
    (v : α) (h : q ≠ k) : mapLookup (mapInsert m k v) q = mapLookup m q := by
  induction m with
  | nil => simp [mapInsert, mapLookup, Ne.symm h]
  | cons p rest ih =>
    obtain ⟨a, w⟩ := p
    by_cases ha : a = k
    · subst ha
      simp [mapInsert, mapLookup, Ne.symm h]
    · simp [mapInsert, mapLookup, ha, ih]

theorem mapInsert_keys_of_present {α : Type} (m : List (String × α))
    (k : String) (v w : α) (h : mapLookup m k = some w) :
    (mapInsert m k v).map Prod.fst = m.map Prod.fst := by
  induction m with
  | nil => simp [mapLookup] at h
  | cons p rest ih =>
    obtain ⟨a, b⟩ := p
    by_cases ha : a = k
    · simp [mapInsert, ha]
    · simp [mapLookup, ha] at h
      simp [mapInsert, ha, ih h]

theorem mapInsert_length_of_present {α : Type} (m : List (String × α))
    (k : String) (v w : α) (h : mapLookup m k = some w) :
    (mapInsert m k v).length = m.length := by
  have hk := congrArg List.length (mapInsert_keys_of_present m k v w h)
  simpa using hk

/-! ## Helper lemmas: Mongo `UpdateOne` -/

theorem replaceFirstBy_length {α : Type} (key : α → String) (l : List α)
    (k : String) (nd : α) : (replaceFirstBy key l k nd).1.length = l.length := by
  induction l with
  | nil => rfl
  | cons d rest ih =>
    by_cases h : key d = k <;> simp [replaceFirstBy, h, ih]

theorem replaceFirstBy_zero_iff {α : Type} (key : α → String) (l : List α)
    (k : String) (nd : α) :
    (replaceFirstBy key l k nd).2 = 0 ↔ ∀ d ∈ l, key d ≠ k := by
  induction l with
  | nil => simp [replaceFirstBy]
  | cons d rest ih =>
    by_cases h : key d = k <;> simp [replaceFirstBy, h, ih]

theorem replaceFirstBy_unchanged_of_zero {α : Type} (key : α → String)
    (l : List α) (k : String) (nd : α)
    (h : (replaceFirstBy key l k nd).2 = 0) :
    (replaceFirstBy key l k nd).1 = l := by
  induction l with
  | nil => rfl
  | cons d rest ih =>
    by_cases hd : key d = k
    · simp [replaceFirstBy, hd] at h
    · simp [replaceFirstBy, hd] at h ⊢
      exact ih h

theorem replaceFirstBy_mem_of_match {α : Type} (key : α → String) (l : List α)
    (k : String) (nd : α) (h : ∃ d ∈ l, key d = k) :
    nd ∈ (replaceFirstBy key l k nd).1 ∧ (replaceFirstBy key l k nd).2 ≠ 0 := by
  induction l with
  | nil => simp at h
  | cons d rest ih =>
    by_cases hd : key d = k
    · simp [replaceFirstBy, hd]
    · simp [hd] at h
      have := ih h
      simp [replaceFirstBy, hd, this.1, this.2]

/-! ## Helper lemmas: list indexing for the heap model -/

theorem listGet_append_lt {α : Type} (l l' : List α) (r : Nat)
    (h : r < l.length) : (l ++ l').get? r = l.get? r := by
  induction l generalizing r with
  | nil => simp at h
  | cons x xs ih =>
    cases r with
    | zero => rfl
    | succ n => exact ih n (Nat.lt_of_succ_lt_succ h)

theorem listGet_concat_len {α : Type} (l : List α) (a : α) :
    (l ++ [a]).get? l.length = some a := by
  induction l with
  | nil => rfl
  | cons x xs ih => exact ih

theorem listGet_set_self {α : Type} (l : List α) (r : Nat) (v : α)
    (h : r < l.length) : (l.set r v).get? r = some v := by
  induction l generalizing r with
  | nil => simp at h
  | cons x xs ih =>
    cases r with
    | zero => rfl
    | succ n => exact ih n (Nat.lt_of_succ_lt_succ h)

theorem list_getLast_append_two {α : Type} (l : List α) (a b : α) :
    (l ++ [a, b]).getLast? = some b := by
  rw [show l ++ [a, b] = (l ++ [a]) ++ [b] by simp]
  simp

theorem list_dropLast_append_two {α : Type} (l : List α) (a b : α) :
    (l ++ [a, b]).dropLast = l ++ [a] := by
  rw [show l ++ [a, b] = (l ++ [a]) ++ [b] by simp]
  simp

/-! ## Helper lemmas: the validation scan -/

theorem validateSteps_none_iff (jobName : String) (i : Nat)
    (steps : List Step) :
    validateSteps jobName i steps = none ↔ steps.all stepOK = true := by
  induction steps generalizing i with
  | nil => simp [validateSteps]
  | cons s rest ih =>
    by_cases hn : s.name = ""
    · simp [validateSteps, hn, stepOK]
    · by_cases hr : s.run = ""
      · simp [validateSteps, hn, hr, stepOK]
      · simp [validateSteps, hn, hr, stepOK, ih]

theorem validateJob_none_iff (jobName : String) (job : Job) :
    validateJob jobName job = none ↔ jobOK job = true := by
  by_cases he : job.steps.isEmpty
  · simp [validateJob, he, jobOK]
  · simp [validateJob, he, jobOK, validateSteps_none_iff]

theorem validateJobs_append_ok (pre rest : List (String × Job))
    (h : ∀ p ∈ pre, jobOK p.2 = true) :
    validateJobs (pre ++ rest) = validateJobs rest := by
  induction pre with
  | nil => rfl
  | cons p tail ih =>
    obtain ⟨n, j⟩ := p
    have hj : validateJob n j = none :=
      (validateJob_none_iff n j).mpr (h (n, j) (by simp))
    have htail : ∀ q ∈ tail, jobOK q.2 = true := fun q hq => h q (by simp [hq])
    simp [validateJobs, hj, ih htail]

theorem validateJobs_none_iff (jobs : List (String × Job)) :
    validateJobs jobs = none ↔ ∀ p ∈ jobs, jobOK p.2 = true := by
  induction jobs with
  | nil => simp [validateJobs]
  | cons p rest ih =>
    obtain ⟨n, j⟩ := p
    by_cases hj : validateJob n j = none
    · have := (validateJob_none_iff n j).mp hj
      simp [validateJobs, hj, ih, this]
    · rcases Option.ne_none_iff_exists.mp hj with ⟨e, he⟩
      have : jobOK j = false := by
        rcases Bool.eq_false_or_eq_true (jobOK j) with h1 | h1
        · exact absurd ((validateJob_none_iff n j).mpr h1) hj
        · exact h1
      simp [validateJobs, ← he, this]

/-! ## Helper lemmas: the job loop preserves `CompletedAt` until the end -/

theorem runJobsLoop_completedAt (exec : String → Job → ExecResult)
    (wf : Workflow) :
    ∀ (order : List String) (run : WorkflowRun) (t : Nat),
      (runJobsLoop exec wf order run t).run.completedAt = run.completedAt ∧
      ∀ r' ∈ (runJobsLoop exec wf order run t).trace,
        r'.completedAt = run.completedAt
  | [], run, t => by
    constructor
    · rfl
    · intro r' hr'
      simp [runJobsLoop] at hr'
  | jobName :: rest, run, t => by
    have ih := runJobsLoop_completedAt exec wf rest
    simp only [runJobsLoop]
    split
    · refine ⟨rfl, ?_⟩
      intro r' hr'
      simp only [List.mem_cons, List.mem_singleton, List.not_mem_nil,
        or_false] at hr'
      rcases hr' with h | h <;> subst h <;> rfl
    · refine ⟨(ih _ _).1, ?_⟩
      intro r' hr'
      simp only [List.mem_cons] at hr'
      rcases hr' with h | h | h
      · subst h; rfl
      · subst h; rfl
      · have h2 := (ih _ _).2 r' h
        exact h2

/-! ## Claim theorems -/

/-- C3 (code_bug): the run id built by `executeWorkflow` is
`"run-" ++ <unix second>` and nothing else, so any two runs created in the
same second — e.g. two concurrent triggers of the same workflow — receive
the SAME id, contradicting the claimed collision avoidance; the in-memory
`SaveRun` then overwrites the first record (one entry left, not two). -/
theorem c3_runid_same_second_collision :
    (∀ (wf wf' : Workflow) (t : Nat),
        (executeWorkflow wf t).id = (executeWorkflow wf' t).id) ∧
    (executeWorkflow cxWorkflow 1700000000).id = "run-1700000000" ∧
    (memSaveRun (memSaveRun [] (executeWorkflow cxWorkflow 1700000000))
        (executeWorkflow { cxWorkflow with name := "other" } 1700000000)).length
      = 1 := by
  refine ⟨fun wf wf' t => rfl, rfl, rfl⟩

/-- C7 (code_bug): `DockerExecutor.Execute` removes the container on the
success and non-zero-exit paths only; when `ContainerStart` fails or
`ContainerWait` yields an error, the function returns early and the created
container is never removed — teardown IS skipped on those error paths. -/
theorem c7_cleanup_skipped_on_start_failure :
    ((dockerExecute startFailEnv).created = true ∧
     (dockerExecute startFailEnv).removed = false ∧
     (dockerExecute startFailEnv).err.isSome = true) ∧
    ((dockerExecute waitErrEnv).created = true ∧
     (dockerExecute waitErrEnv).removed = false ∧
     (dockerExecute waitErrEnv).err.isSome = true) ∧
    (∀ env : DockerEnv,
        (dockerExecute env).removed = true ↔
          env.pullOk = true ∧ env.createOk = true ∧ env.startOk = true ∧
            env.waitErr = false) := by
  refine ⟨by decide, by decide, ?_⟩
  intro env
  obtain ⟨p, c, s, w, code, logs⟩ := env
  by_cases hcode : code = 0 <;>
    cases p <;> cases c <;> cases s <;> cases w <;>
      simp [dockerExecute, hcode]

/-- C4 (confirmed): `UpdateRun` is a strict update in both storage
implementations: a missing run id yields a not-found error and leaves the
store exactly as it was (nothing inserted); a present id succeeds and
replaces the stored record (other entries untouched, no growth). -/
theorem c4_updateRun_strict
    (store : List (String × WorkflowRun)) (docs : List WorkflowRun)
    (run : WorkflowRun) :
    (mapLookup store run.id = none →
       memUpdateRun store run
         = (store, some ("run '" ++ run.id ++ "' not found"))) ∧
    (∀ r₀, mapLookup store run.id = some r₀ →
       (memUpdateRun store run).2 = none ∧
       mapLookup (memUpdateRun store run).1 run.id = some run ∧
       (∀ q, q ≠ run.id →
          mapLookup (memUpdateRun store run).1 q = mapLookup store q) ∧
       (memUpdateRun store run).1.length = store.length) ∧
    ((∀ d ∈ docs, d.id ≠ run.id) →
       mongoUpdateRun docs run
         = (docs, some ("run '" ++ run.id ++ "' not found"))) ∧
    ((∃ d ∈ docs, d.id = run.id) →
       (mongoUpdateRun docs run).2 = none ∧
       run ∈ (mongoUpdateRun docs run).1 ∧
       (mongoUpdateRun docs run).1.length = docs.length) := by
  refine ⟨?_, ?_, ?_, ?_⟩
  · intro h
    simp [memUpdateRun, h]
  · intro r₀ h
    refine ⟨by simp [memUpdateRun, h], by simp [memUpdateRun, h, mapLookup_insert_self], ?_, ?_⟩
    · intro q hq
      simp [memUpdateRun, h, mapLookup_insert_ne _ _ _ _ hq]
    · simp [memUpdateRun, h, mapInsert_length_of_present store run.id run r₀ h]
  · intro h
    have hz : (replaceFirstBy WorkflowRun.id docs run.id run).2 = 0 :=
      (replaceFirstBy_zero_iff WorkflowRun.id docs run.id run).mpr h
    simp [mongoUpdateRun, hz]
  · intro h
    have hm := replaceFirstBy_mem_of_match WorkflowRun.id docs run.id run h
    refine ⟨by simp [mongoUpdateRun, hm.2], by simp [mongoUpdateRun, hm.2, hm.1], ?_⟩
    simp [mongoUpdateRun, hm.2, replaceFirstBy_length]

/-- Witness for C4: instantiated on a missing id (`run-100` over the empty
store / collection: not-found, store unchanged) and on a present id (the
record is replaced). -/
theorem c4_updateRun_strict_witness :
    memUpdateRun [] cxRun1 = ([], some ("run '" ++ cxRun1.id ++ "' not found")) ∧
    (memUpdateRun cxRunStoreMem cxRun2).2 = none ∧
    mapLookup (memUpdateRun cxRunStoreMem cxRun2).1 cxRun2.id = some cxRun2 ∧
    mongoUpdateRun [] cxRun1 = ([], some ("run '" ++ cxRun1.id ++ "' not found")) ∧
    (mongoUpdateRun [cxRun1] cxRun2).2 = none := by
  have abs := c4_updateRun_strict [] [] cxRun1
  have pres := c4_updateRun_strict cxRunStoreMem [cxRun1] cxRun2
  exact ⟨abs.1 (by decide), (pres.2.1 cxRun1 (by decide)).1,
    (pres.2.1 cxRun1 (by decide)).2.1, abs.2.2.1 (by decide),
    (pres.2.2.2 (by decide)).1⟩

/-- C10 (confirmed): `SaveWorkflow` has upsert semantics in both storage
implementations: saving under a name that is already present succeeds with
no error, silently replaces the stored workflow, adds no duplicate entry
and leaves every other entry unchanged — in contrast to `UpdateRun`, which
refuses a missing record. -/
theorem c10_saveWorkflow_upsert
    (store : List (String × Workflow)) (docs : List Workflow)
    (wf old : Workflow)
    (hmem : mapLookup store wf.name = some old)
    (hdoc : ∃ d ∈ docs, d.name = wf.name) :
    (memSaveWorkflow store wf).2 = none ∧
    mapLookup (memSaveWorkflow store wf).1 wf.name = some wf ∧
    (memSaveWorkflow store wf).1.length = store.length ∧
    (memSaveWorkflow store wf).1.map Prod.fst = store.map Prod.fst ∧
    (∀ q, q ≠ wf.name →
       mapLookup (memSaveWorkflow store wf).1 q = mapLookup store q) ∧
    (mongoSaveWorkflow docs wf).2 = none ∧
    (mongoSaveWorkflow docs wf).1.length = docs.length ∧
    wf ∈ (mongoSaveWorkflow docs wf).1 ∧
    (∀ (rs : List (String × WorkflowRun)) (r : WorkflowRun),
        mapLookup rs r.id = none → (memUpdateRun rs r).2.isSome = true) := by
  have hm := replaceFirstBy_mem_of_match Workflow.name docs wf.name wf hdoc
  refine ⟨rfl, mapLookup_insert_self store wf.name wf,
    mapInsert_length_of_present store wf.name wf old hmem,
    mapInsert_keys_of_present store wf.name wf old hmem,
    fun q hq => mapLookup_insert_ne store wf.name q wf hq,
    by simp [mongoSaveWorkflow, hm.2],
    by simp [mongoSaveWorkflow, hm.2, replaceFirstBy_length],
    by simp [mongoSaveWorkflow, hm.2, hm.1],
    fun rs r hr => by simp [memUpdateRun, hr]⟩

/-- Witness for C10: re-saving the `demo` workflow over an existing `demo`
entry succeeds, replaces it and leaves a single entry, in both models. -/
theorem c10_saveWorkflow_upsert_witness :
    (memSaveWorkflow cxWfStoreMem cxWorkflow).2 = none ∧
    mapLookup (memSaveWorkflow cxWfStoreMem cxWorkflow).1 cxWorkflow.name
      = some cxWorkflow ∧
    (memSaveWorkflow cxWfStoreMem cxWorkflow).1.length = cxWfStoreMem.length ∧
    (mongoSaveWorkflow [cxOldWf] cxWorkflow).2 = none ∧
    (mongoSaveWorkflow [cxOldWf] cxWorkflow).1.length = 1 ∧
    cxWorkflow ∈ (mongoSaveWorkflow [cxOldWf] cxWorkflow).1 := by
  have h := c10_saveWorkflow_upsert cxWfStoreMem [cxOldWf] cxWorkflow cxOldWf
    (by decide) (by decide)
  exact ⟨h.1, h.2.1, h.2.2.1, h.2.2.2.2.2.1, h.2.2.2.2.2.2.1, h.2.2.2.2.2.2.2.1⟩

/-- Counterexample for C2: a structurally valid definition may declare a job
under the empty-string name (it parses, and `Validate` accepts it — job
names are never validated).  The node pass drops the `""` key
(`Value != ""`, yaml.go:44), so `job_order` is `["b"]` while the jobs
mapping has keys `["", "b"]`: not a permutation, and not the declaration
sequence. -/
theorem c2_empty_jobname_cx :
    parseJobOrder [("", okJob), ("b", okJob)] = ["b"] ∧
    ¬ (parseJobOrder [("", okJob), ("b", okJob)]).Perm
        (([("", okJob), ("b", okJob)].map Prod.fst)) ∧
    validate (parseWorkflow "w" [("", okJob), ("b", okJob)]) = none := by
  exact ⟨rfl, fun hp => absurd hp.length_eq (by decide), by decide⟩

/-- C2 (corrected): for every workflow definition whose declared job names
are all non-empty, the parsed `job_order` equals the declaration-order key
sequence and is a permutation of the jobs mapping's keys; a job declared
under the empty-string name is silently dropped from `job_order` by the
order-recovery pass. -/
theorem c2_order_preserved_amended
    (name : String) (decl : List (String × Job))
    (hkeys : ∀ p ∈ decl, p.1 ≠ "") :
    (parseWorkflow name decl).jobOrder = decl.map Prod.fst ∧
    (parseWorkflow name decl).jobOrder.Perm
      ((parseWorkflow name decl).jobs.map Prod.fst) := by
  have hfilter : nodePassJobOrder decl = decl.map Prod.fst := by
    unfold nodePassJobOrder
    apply List.filter_eq_self.mpr
    intro a ha
    rcases List.mem_map.mp ha with ⟨p, hp, rfl⟩
    simpa using hkeys p hp
  have horder : parseJobOrder decl = decl.map Prod.fst := by
    unfold parseJobOrder
    rw [hfilter]
    simp only [ite_self]
  refine ⟨horder, ?_⟩
  show (parseJobOrder decl).Perm (decl.map Prod.fst)
  rw [horder]

/-- Witness for C2 (amended): two jobs declared as `a` then `b` parse to
`job_order = [a, b]`, a permutation of the mapping's keys. -/
theorem c2_order_preserved_witness :
    (parseWorkflow "demo" [("a", okJob), ("b", okJob)]).jobOrder = ["a", "b"] ∧
    (parseWorkflow "demo" [("a", okJob), ("b", okJob)]).jobOrder.Perm
      ((parseWorkflow "demo" [("a", okJob), ("b", okJob)]).jobs.map Prod.fst) := by
  have h := c2_order_preserved_amended "demo" [("a", okJob), ("b", okJob)]
    (by decide)
  exact ⟨h.1, h.2⟩

/-- Counterexample for C9: one workflow violating rule (3) (job `a` has no
steps) and rule (4) (job `b`'s step has no name).  `Validate` iterates the
jobs map in Go's unspecified `range` order; in the order `[b, a]` it
returns the rule-(4) message although the earliest-numbered violated rule
is (3) — while the order `[a, b]` returns the rule-(3) message.  The
"earliest-numbered violation always wins" part of the claim is therefore
false. -/
theorem c9_rule_order_cx :
    validate { name := "w", jobs := [("b", jobBadStepName), ("a", jobNoSteps)]
               jobOrder := ["b", "a"] }
      = some "job 'b' step 1 is missing a name" ∧
    jobNoSteps.steps.isEmpty = true ∧
    validate { name := "w", jobs := [("a", jobNoSteps), ("b", jobBadStepName)]
               jobOrder := ["b", "a"] }
      = some "job 'a' must have at least one step" := by
  exact ⟨by decide, rfl, by decide⟩

/-- C9 (corrected): rules (1) and (2) are checked first, in that order;
the jobs are then scanned in map-iteration order with rule (3) before rule
(4) inside each job (and, inside each step, the name check before the run
check); the first violation of that scan wins, with a distinct message
naming the offending job or step.  Across different jobs the reported
violation follows the iteration order, not the rule numbering; validation
succeeds exactly when no rule is violated. -/
theorem c9_first_violation_in_scan
    (wf : Workflow) :
    (wf.name = "" → validate wf = some "workflow name is required") ∧
    (wf.name ≠ "" → wf.jobs = [] →
       validate wf = some "workflow must have at least one job") ∧
    (∀ pre jobName job post,
       wf.name ≠ "" → wf.jobs = pre ++ (jobName, job) :: post →
       (∀ p ∈ pre, jobOK p.2 = true) → jobOK job = false →
       validate wf = validateJob jobName job ∧
       (validateJob jobName job).isSome = true) ∧
    (validate wf = none ↔
       (wf.name ≠ "" ∧ wf.jobs ≠ [] ∧ ∀ p ∈ wf.jobs, jobOK p.2 = true)) := by
  refine ⟨?_, ?_, ?_, ?_⟩
  · intro h
    simp [validate, h]
  · intro h1 h2
    simp [validate, h1, h2]
  · intro pre jobName job post h1 hjobs hpre hj
    have hjobsne : wf.jobs.isEmpty = false := by
      rw [hjobs]; cases pre <;> rfl
    have hval : validate wf = validateJobs (pre ++ (jobName, job) :: post) := by
      simp [validate, h1, hjobsne, hjobs]
    have hv : validateJob jobName job ≠ none := fun hnone => by
      simp [(validateJob_none_iff jobName job).mp hnone] at hj
    rcases Option.ne_none_iff_exists.mp hv with ⟨e, he⟩
    rw [hval, validateJobs_append_ok pre _ hpre]
    constructor
    · simp [validateJobs, ← he]
    · simp [← he]
  · constructor
    · intro hv
      by_cases h1 : wf.name = ""
      · simp [validate, h1] at hv
      · by_cases h2 : wf.jobs.isEmpty
        · simp [validate, h1, h2] at hv
        · have h3 : validateJobs wf.jobs = none := by
            simpa [validate, h1, h2] using hv
          refine ⟨h1, ?_, (validateJobs_none_iff wf.jobs).mp h3⟩
          intro hnil
          simp [hnil] at h2
    · rintro ⟨h1, h2, h3⟩
      have h2' : wf.jobs.isEmpty = false := by
        cases hjobs : wf.jobs
        · exact absurd hjobs h2
        · rfl
      simp [validate, h1, h2', (validateJobs_none_iff wf.jobs).mpr h3]

/-- Witness for C9 (amended): one instance per checked rule — missing name,
no jobs, a violating job reached after an OK job, and a fully valid
workflow. -/
theorem c9_first_violation_witness :
    validate { name := "", jobs := [("a", okJob)], jobOrder := ["a"] }
      = some "workflow name is required" ∧
    validate { name := "w", jobs := [], jobOrder := [] }
      = some "workflow must have at least one job" ∧
    validate { name := "w", jobs := [("a", okJob), ("z", jobNoSteps)]
               jobOrder := [] }
      = validateJob "z" jobNoSteps ∧
    validate { name := "w", jobs := [("a", okJob)], jobOrder := ["a"] } = none := by
  have w1 := c9_first_violation_in_scan
    { name := "", jobs := [("a", okJob)], jobOrder := ["a"] }
  have w2 := c9_first_violation_in_scan
    { name := "w", jobs := [], jobOrder := [] }
  have w3 := c9_first_violation_in_scan
    { name := "w", jobs := [("a", okJob), ("z", jobNoSteps)], jobOrder := [] }
  have w4 := c9_first_violation_in_scan
    { name := "w", jobs := [("a", okJob)], jobOrder := ["a"] }
  exact ⟨w1.1 rfl, w2.2.1 (by decide) rfl,
    (w3.2.2.1 [("a", okJob)] "z" jobNoSteps [] (by decide) rfl (by decide)
      (by decide)).1,
    w4.2.2.2.mpr (by decide)⟩

/-- Counterexample for C5: the run mutators carry no terminal-state guard.
On a run with `status = "success"` and `completed_at` set, `SetStatus`
still overwrites the status and `UpdateJob` still alters the jobs map —
the operations CAN transition a terminal run. -/
theorem c5_setstatus_unguarded_cx :
    terminalRunCx.status = "success" ∧
    terminalRunCx.completedAt = some 5 ∧
    (terminalRunCx.setStatus "running").status = "running" ∧
    (terminalRunCx.updateJob "b" okJob).jobs ≠ terminalRunCx.jobs := by
  exact ⟨rfl, rfl, rfl, by decide⟩

/-- C5 (corrected): immutability of a terminal run is not enforced by the
operations (see counterexample), but holds as a property of the
orchestrator's execution: in the sequence of run states `runJobs` produces,
`completed_at` is still `none` in every state but the last, so the
conjunction "status ∈ {success, failed} and completed_at set" first becomes
true at the final state, after which no operation is applied. -/
theorem c5_terminal_is_final_in_runjobs
    (exec : String → Job → ExecResult) (wf : Workflow) (run0 : WorkflowRun)
    (t : Nat) (h0 : run0.completedAt = none) :
    ((runJobs exec wf run0 t).final.status = "success" ∨
     (runJobs exec wf run0 t).final.status = "failed") ∧
    (runJobs exec wf run0 t).final.completedAt.isSome = true ∧
    (runJobs exec wf run0 t).trace.getLast?
      = some (runJobs exec wf run0 t).final ∧
    (∀ r' ∈ (runJobs exec wf run0 t).trace.dropLast, r'.completedAt = none) := by
  have hloop := runJobsLoop_completedAt exec wf (effectiveJobOrder wf) run0 t
  refine ⟨?_, rfl, ?_, ?_⟩
  · cases h : (runJobsLoop exec wf (effectiveJobOrder wf) run0 t).allSuccess
    · right
      simp [runJobs, h, WorkflowRun.setStatus, WorkflowRun.complete]
    · left
      simp [runJobs, h, WorkflowRun.setStatus, WorkflowRun.complete]
  · exact list_getLast_append_two _ _ _
  · simp only [runJobs]
    rw [list_dropLast_append_two]
    intro r' hr'
    rcases List.mem_append.mp hr' with hmem | hmem
    · exact (hloop.2 r' hmem).trans h0
    · have heq := List.mem_singleton.mp hmem
      subst heq
      exact hloop.1.trans h0

/-- Witness for C5 (amended): the run created by triggering `cxWorkflow`
reaches a terminal status with `completed_at` set. -/
theorem c5_terminal_is_final_witness :
    (executeWorkflow cxWorkflow 0).completedAt = none ∧
    ((runJobs cxExec cxWorkflow (executeWorkflow cxWorkflow 0) 0).final.status
        = "success" ∨
     (runJobs cxExec cxWorkflow (executeWorkflow cxWorkflow 0) 0).final.status
        = "failed") ∧
    (runJobs cxExec cxWorkflow
        (executeWorkflow cxWorkflow 0) 0).final.completedAt.isSome = true := by
  have h := c5_terminal_is_final_in_runjobs cxExec cxWorkflow
    (executeWorkflow cxWorkflow 0) 0 rfl
  exact ⟨rfl, h.1, h.2.1⟩

/-- Counterexample for C6: the workflow's `job_order` slice lives at heap
ref 0; the run created by `executeWorkflow` observes `["lint", "test"]`
through it, and after an in-place write to the WORKFLOW's job_order the
RUN's observed job_order is `["hacked"]` — the run's job_order is not
insulated from later mutation of the workflow's, because
`JobOrder: wf.JobOrder` aliases the slice instead of copying it. -/
theorem c6_joborder_alias_cx :
    ((executeWorkflowRef cxHeap6 cxWfRef 7).1.readStrs
        (executeWorkflowRef cxHeap6 cxWfRef 7).2.jobOrderRef
      = ["lint", "test"]) ∧
    (((executeWorkflowRef cxHeap6 cxWfRef 7).1.writeStrs cxWfRef.jobOrderRef
          ["hacked"]).readStrs
        (executeWorkflowRef cxHeap6 cxWfRef 7).2.jobOrderRef
      = ["hacked"]) := by
  exact ⟨rfl, rfl⟩

/-- C6 (corrected): `executeWorkflow` does not copy the workflow's
`job_order` — the created run carries the very same slice reference, so an
in-place write through the workflow's slice is visible through the run; the
run's jobs map, in contrast, is freshly allocated (and empty). -/
theorem c6_joborder_aliases_workflow
    (h : Heap) (wf : WorkflowRef) (t : Nat)
    (hv : wf.jobOrderRef < h.strArrays.length) :
    (executeWorkflowRef h wf t).2.jobOrderRef = wf.jobOrderRef ∧
    (∀ v, ((executeWorkflowRef h wf t).1.writeStrs wf.jobOrderRef v).readStrs
            (executeWorkflowRef h wf t).2.jobOrderRef = v) ∧
    (executeWorkflowRef h wf t).1.readJobMap
        (executeWorkflowRef h wf t).2.jobsRef = [] := by
  refine ⟨rfl, ?_, ?_⟩
  · intro v
    show ((h.strArrays.set wf.jobOrderRef v).get? wf.jobOrderRef).getD []
      = v
    rw [listGet_set_self h.strArrays wf.jobOrderRef v hv]
    rfl
  · show ((h.jobMaps ++ [[]]).get? h.jobMaps.length).getD [] = []
    rw [listGet_concat_len]
    rfl

/-- Witness for C6 (amended): on the concrete fixture the created run's
job-order reference coincides with the workflow's and its jobs map is a
fresh empty one. -/
theorem c6_joborder_alias_witness :
    (executeWorkflowRef cxHeap6 cxWfRef 7).2.jobOrderRef
      = cxWfRef.jobOrderRef ∧
    (executeWorkflowRef cxHeap6 cxWfRef 7).1.readJobMap
        (executeWorkflowRef cxHeap6 cxWfRef 7).2.jobsRef = [] := by
  have h := c6_joborder_aliases_workflow cxHeap6 cxWfRef 7 (by decide)
  exact ⟨h.1, h.2.2⟩

/-- Counterexample for C8: the copy returned by `getRun` carries a fresh
jobs map OBJECT, but each job value inside it keeps the stored job's
`Steps` slice reference: writing a new step list through the RETURNED
copy's steps reference changes the STORED run's observed steps from
`[okStep]` to the replacement — mutating part of the returned value does
not leave the stored run unchanged, so the copy is not deep. -/
theorem c8_steps_shared_cx :
    getRunRef cxHeap8 cxRunStore "run-1" = some cxCloneOut ∧
    cxCloneStepsRef = 0 ∧
    cxStoredSteps cxCloneOut.1 = [okStep] ∧
    cxStoredSteps cxMutatedHeap = [{ name := "hacked", run := "rm -rf" }] := by
  exact ⟨rfl, rfl, rfl, rfl⟩

/-- C8 (corrected): `getRun` returns `Clone()`: a copy with a fresh
job_order array (same contents) and a fresh jobs map object (same entries),
so mutating the returned map structure or order sequence leaves the store
unchanged — but every job value in the fresh map retains the stored job's
`Steps` slice reference (and `EndedAt` pointer), and `CompletedAt` is a
shared pointer: the copy is one level deep, not a deep copy of each job's
steps. -/
theorem c8_getrun_shallow_clone
    (h : Heap) (store : List (String × RunRef)) (id : String) (r : RunRef)
    (hfind : mapLookup store id = some r)
    (hord : r.jobOrderRef < h.strArrays.length)
    (hjm : r.jobsRef < h.jobMaps.length) :
    getRunRef h store id = some (h.cloneRun r) ∧
    (h.cloneRun r).2.jobOrderRef ≠ r.jobOrderRef ∧
    (h.cloneRun r).1.readStrs (h.cloneRun r).2.jobOrderRef
      = h.readStrs r.jobOrderRef ∧
    (h.cloneRun r).2.jobsRef ≠ r.jobsRef ∧
    (h.cloneRun r).1.readJobMap (h.cloneRun r).2.jobsRef
      = h.readJobMap r.jobsRef ∧
    (∀ k jv, mapLookup (h.readJobMap r.jobsRef) k = some jv →
       mapLookup ((h.cloneRun r).1.readJobMap (h.cloneRun r).2.jobsRef) k
         = some jv) ∧
    (h.cloneRun r).2.completedAtRef = r.completedAtRef := by
  have hordeq : (h.cloneRun r).1.readStrs (h.cloneRun r).2.jobOrderRef
      = h.readStrs r.jobOrderRef := by
    show ((h.strArrays ++ [h.readStrs r.jobOrderRef]).get?
        h.strArrays.length).getD [] = h.readStrs r.jobOrderRef
    rw [listGet_concat_len]
    rfl
  have hmapeq : (h.cloneRun r).1.readJobMap (h.cloneRun r).2.jobsRef
      = h.readJobMap r.jobsRef := by
    show ((h.jobMaps ++ [h.readJobMap r.jobsRef]).get?
        h.jobMaps.length).getD [] = h.readJobMap r.jobsRef
    rw [listGet_concat_len]
    rfl
  refine ⟨by simp [getRunRef, hfind], ?_, hordeq, ?_, hmapeq,
    fun k jv hkv => by rw [hmapeq]; exact hkv, rfl⟩
  · show h.strArrays.length ≠ r.jobOrderRef
    omega
  · show h.jobMaps.length ≠ r.jobsRef
    omega

/-- Witness for C8 (amended): on the concrete fixture `getRun` returns the
clone, whose job-order reference is fresh while the contents agree. -/
theorem c8_getrun_shallow_clone_witness :
    getRunRef cxHeap8 cxRunStore "run-1" = some (cxHeap8.cloneRun cxStoredRun) ∧
    (cxHeap8.cloneRun cxStoredRun).2.jobOrderRef ≠ cxStoredRun.jobOrderRef ∧
    (cxHeap8.cloneRun cxStoredRun).1.readStrs
        (cxHeap8.cloneRun cxStoredRun).2.jobOrderRef
      = cxHeap8.readStrs cxStoredRun.jobOrderRef := by
  have h := c8_getrun_shallow_clone cxHeap8 cxRunStore "run-1" cxStoredRun
    (by decide) (by decide) (by decide)
  exact ⟨h.1, h.2.1, h.2.2.1⟩

/-- Counterexample for C1: jobs `[a, b, c]` with `a` succeeding and `b`
failing.  The run's jobs map starts empty (`make(map[string]Job)` in
`executeWorkflow`) and receives an entry only when a job starts, so in the
resulting run job `c` is ABSENT — it does not carry status `"pending"`. -/
theorem c1_job_c_absent_cx :
    ((runJobs cxExec cxWorkflow (executeWorkflow cxWorkflow 0) 0).final.getJob
        "c").map Job.status ≠ some "pending" ∧
    (runJobs cxExec cxWorkflow (executeWorkflow cxWorkflow 0) 0).final.getJob
        "c" = none := by
  exact ⟨by decide, by decide⟩

/-- C1 (corrected): for every workflow whose `job_order` is `[a, b, c]`
(names distinct) where `a`'s execution succeeds and `b`'s reports failure,
the final run records `a` with status `success` and `b` with status
`failed`, the Execution Backend is invoked exactly for `[a, b]` — never for
`c` — and the overall run status is `failed` (stop on first failure); but
`c` is absent from the run's jobs map rather than present with status
`pending`. -/
theorem c1_stop_on_first_failure
    (exec : String → Job → ExecResult) (wf : Workflow) (t : Nat)
    (a b c : String) (hab : a ≠ b) (hac : a ≠ c) (hbc : b ≠ c)
    (horder : wf.jobOrder = [a, b, c])
    (ha : ∀ j, (exec a j).failed = false)
    (hb : ∀ j, (exec b j).failed = true) :
    ((runJobs exec wf (executeWorkflow wf t) t).final.getJob a).map Job.status
        = some "success" ∧
    ((runJobs exec wf (executeWorkflow wf t) t).final.getJob b).map Job.status
        = some "failed" ∧
    (runJobs exec wf (executeWorkflow wf t) t).final.getJob c = none ∧
    (runJobs exec wf (executeWorkflow wf t) t).executed = [a, b] ∧
    (runJobs exec wf (executeWorkflow wf t) t).final.status = "failed" := by
  have hne : (effectiveJobOrder wf) = [a, b, c] := by
    rw [effectiveJobOrder, horder]
    rfl
  simp only [runJobs, hne, runJobsLoop, executeWorkflow, WorkflowRun.updateJob,
    WorkflowRun.getJob, WorkflowRun.setStatus, WorkflowRun.complete,
    ha, hb, mapInsert, mapLookup, Bool.false_eq_true, if_false, if_true]
  simp [mapInsert, mapLookup, hab, Ne.symm hab, hac, Ne.symm hac, hbc,
    Ne.symm hbc]

/-- Witness for C1 (amended): instantiated on the three-job fixture where
`b` fails. -/
theorem c1_stop_on_first_failure_witness :
    ((runJobs cxExec cxWorkflow (executeWorkflow cxWorkflow 5) 5).final.getJob
        "a").map Job.status = some "success" ∧
    ((runJobs cxExec cxWorkflow (executeWorkflow cxWorkflow 5) 5).final.getJob
        "b").map Job.status = some "failed" ∧
    (runJobs cxExec cxWorkflow (executeWorkflow cxWorkflow 5) 5).final.getJob
        "c" = none ∧
    (runJobs cxExec cxWorkflow (executeWorkflow cxWorkflow 5) 5).executed
      = ["a", "b"] ∧
    (runJobs cxExec cxWorkflow (executeWorkflow cxWorkflow 5) 5).final.status
      = "failed" := by
  exact c1_stop_on_first_failure cxExec cxWorkflow 5 "a" "b" "c" (by decide)
    (by decide) (by decide) rfl (fun j => rfl) (fun j => rfl)

end Gantry
